import Mathlib

/-!
Verification development for the OpenNotesAPI desktop shell
(`src/desktop/src-tauri/src/lib.rs`).

The repository exposes a single Tauri command, `api_fetch`, which builds one
HTTP request from a target URL and an optional method string, injects three
fixed headers, dispatches it once, and maps the outcome into either a
normalized response envelope or one of two formatted error strings.

The embedding below translates that command shallowly:

* the network is an oracle `world : Request → SendResult` supplied as a
  parameter — it decides, for the one request the command builds, whether
  dispatch fails (`reqwest`'s `send()` error), or a response arrives with a
  status code and a body-read outcome (`response.text()`);
* `api_fetch` returns both the command's `Result<HttpResponse, String>`
  (as `Except String HttpResponse`) and the list of requests it handed to
  the network, so that claims about outbound wire behavior are statable;
* library calls are embedded by their documented semantics:
  `StatusCode::is_success` is the 200–299 range check, `str::to_uppercase`
  is modelled by `String.toUpper` (they agree on the ASCII method names the
  command compares against), and `HeaderValue::from_static` validity is the
  http crate's byte predicate.
-/

namespace OpenNotesAPI

/-- The four request-builder paths the command's `match` can select
(`client.get/post/put/delete`). -/
inductive HttpMethod where
  | GET
  | POST
  | PUT
  | DELETE
  deriving DecidableEq, Repr

/-- The response envelope `HttpResponse { status: u16, body: String, ok: bool }`
returned to the caller. -/
structure HttpResponse where
  status : Nat
  body : String
  ok : Bool
  deriving DecidableEq, Repr

/-- An outbound request as the command hands it to the HTTP client: the chosen
builder path, the target URL, and the header map inserted before `send()`. -/
structure Request where
  method : HttpMethod
  url : String
  headers : List (String × String)
  deriving DecidableEq, Repr

/-- What the network returns once a response arrives: its HTTP status code
(`status().as_u16()`) and the outcome of buffering the body as text
(`response.text().await`, which can fail with a decode error). -/
structure NetResponse where
  status : Nat
  bodyRead : Except String String
  deriving Repr

/-- Outcome of `send().await`: either the dispatch fails in transit with an
underlying error message, or a response arrives. -/
inductive SendResult where
  | sendErr (e : String)
  | resp (r : NetResponse)
  deriving Repr

/-- The three headers inserted into the `HeaderMap` before dispatch; all three
values are `HeaderValue::from_static` compile-time constants. -/
def fixedHeaders : List (String × String) :=
  [("content-type", "application/json"),
   ("origin", "https://nagusamecs.github.io"),
   ("referer", "https://nagusamecs.github.io/OpenNotesAPI/")]

/-- Embedding of `StatusCode::is_success` from the http crate: true iff the
code lies in the 200–299 range. -/
def statusIsSuccess (s : Nat) : Bool :=
  decide (200 ≤ s) && decide (s < 300)

/-- Full Unicode uppercase mapping of one character, as Rust's
`char::to_uppercase` performs it (UnicodeData plus SpecialCasing,
unconditional mappings). The branches enumerate the complete set of Unicode
characters whose full uppercase mapping consists solely of ASCII characters:
sharp s, dotless i, long s, and the seven Latin ligatures ff/fi/fl/ffi/ffl and
the two st ligatures. The fallback `Char.toUpper` maps ASCII a–z to A–Z and
leaves every other character unchanged, which agrees with Unicode on all
remaining ASCII characters; every remaining non-ASCII character either
uppercases to itself or to a sequence still containing a non-ASCII character
(e.g. the n-preceded-by-apostrophe letter), so keeping it unchanged preserves
equality of the uppercased string with any pure-ASCII string — in particular
with the four method names the command compares against. -/
def rustCharToUppercase (c : Char) : List Char :=
  if c = 'ß' then ['S', 'S']
  else if c = 'ı' then ['I']
  else if c = 'ſ' then ['S']
  else if c = 'ﬀ' then ['F', 'F']
  else if c = 'ﬁ' then ['F', 'I']
  else if c = 'ﬂ' then ['F', 'L']
  else if c = 'ﬃ' then ['F', 'F', 'I']
  else if c = 'ﬄ' then ['F', 'F', 'L']
  else if c = 'ﬅ' then ['S', 'T']
  else if c = 'ﬆ' then ['S', 'T']
  else [c.toUpper]

/-- Model of Rust's `str::to_uppercase` as used by the command: concatenate the
full uppercase mapping of each character. Under this model the Unicode cases
the method match is sensitive to are captured: for example the string
p-o-long s-t uppercases to "POST", exactly as in Rust. -/
def toUppercase (s : String) : String :=
  String.mk (s.data.flatMap rustCharToUppercase)

/-- The method-selection logic of `api_fetch`: `method.unwrap_or_else(|| "GET")`
followed by the `match method_str.to_uppercase().as_str()` over the four
builder arms, with a catch-all falling back to GET (Rust string matches are
sequential equality tests, embedded here as nested conditionals). -/
def selectMethod (method : Option String) : HttpMethod :=
  let ms := toUppercase (method.getD "GET")
  if ms = "POST" then HttpMethod.POST
  else if ms = "PUT" then HttpMethod.PUT
  else if ms = "DELETE" then HttpMethod.DELETE
  else HttpMethod.GET

/-- The single request `api_fetch` builds from its two inputs: selected method,
the caller's URL, and the fixed header map. -/
def requestFor (url : String) (method : Option String) : Request :=
  { method := selectMethod method, url := url, headers := fixedHeaders }

/-- Shallow embedding of the `api_fetch` Tauri command. The first component is
the command's `Result<HttpResponse, String>`; the second is the list of
requests handed to the network oracle, recording outbound wire traffic.
Mirrors the source: one `send()`, transport failure mapped through
`format!("Request failed: {}", e)`, then status and success flag taken from
the response, then the body buffered with failures mapped through
`format!("Failed to read body: {}", e)`. -/
def api_fetch (world : Request → SendResult) (url : String)
    (method : Option String) : Except String HttpResponse × List Request :=
  let req := requestFor url method
  match world req with
  | SendResult.sendErr e => (Except.error ("Request failed: " ++ e), [req])
  | SendResult.resp r =>
    let status := r.status
    let ok := statusIsSuccess r.status
    match r.bodyRead with
    | Except.error e => (Except.error ("Failed to read body: " ++ e), [req])
    | Except.ok body => (Except.ok ⟨status, body, ok⟩, [req])

/-- Embedding of the http crate's `HeaderValue` byte validity predicate
(`is_valid`): a byte is legal iff it is at least 32 and not 127, or is the
horizontal tab. `HeaderValue::from_static` panics on any string violating
this. The three fixed header values are pure ASCII, so checking code points
coincides with checking bytes. -/
def headerValueByteValid (c : Char) : Bool :=
  (decide (32 ≤ c.toNat) && decide (c.toNat ≠ 127)) || decide (c.toNat = 9)

/-- A static header value is valid iff every byte passes the http crate's
validity predicate. -/
def headerValueValid (s : String) : Bool :=
  s.data.all headerValueByteValid

/-- A network oracle in which every request receives a response with the given
status and a body that buffers successfully to the given text. -/
def netOk (status : Nat) (body : String) : Request → SendResult :=
  fun _ => SendResult.resp ⟨status, Except.ok body⟩

/-- A network oracle in which every dispatch fails in transit with the given
underlying error message. -/
def netDown (e : String) : Request → SendResult :=
  fun _ => SendResult.sendErr e

/-- A network oracle in which every request receives a response with the given
status whose body cannot be decoded as text. -/
def netBadBody (status : Nat) (e : String) : Request → SendResult :=
  fun _ => SendResult.resp ⟨status, Except.error e⟩

/-- Helper: whatever the network does, the command hands it exactly the one
request it built from its inputs. -/
lemma apiFetch_trace (world : Request → SendResult) (url : String)
    (method : Option String) :
    (api_fetch world url method).2 = [requestFor url method] := by
  unfold api_fetch
  cases hw : world (requestFor url method) with
  | sendErr e => simp [hw]
  | resp r =>
    cases hb : r.bodyRead with
    | error e => simp [hw, hb]
    | ok body => simp [hw, hb]

/-- Helper: the command's result depends on the method argument only through
the selected builder path. -/
lemma apiFetch_congr_method (world : Request → SendResult) (url : String)
    (m₁ m₂ : Option String) (h : selectMethod m₁ = selectMethod m₂) :
    api_fetch world url m₁ = api_fetch world url m₂ := by
  unfold api_fetch requestFor
  rw [h]

/-- Helper: the POST builder path is selected exactly when the uppercased
method string is "POST". -/
lemma selectMethod_eq_POST (m : String) :
    selectMethod (some m) = HttpMethod.POST ↔ toUppercase m = "POST" := by
  by_cases h1 : toUppercase m = "POST"
  · simp [selectMethod, h1]
  · by_cases h2 : toUppercase m = "PUT"
    · simp [selectMethod, h1, h2]
    · by_cases h3 : toUppercase m = "DELETE"
      · simp [selectMethod, h1, h2, h3]
      · simp [selectMethod, h1, h2, h3]

/-- Helper: the PUT builder path is selected exactly when the uppercased
method string is "PUT". -/
lemma selectMethod_eq_PUT (m : String) :
    selectMethod (some m) = HttpMethod.PUT ↔ toUppercase m = "PUT" := by
  by_cases h1 : toUppercase m = "POST"
  · simp [selectMethod, h1]
  · by_cases h2 : toUppercase m = "PUT"
    · simp [selectMethod, h1, h2]
    · by_cases h3 : toUppercase m = "DELETE"
      · simp [selectMethod, h1, h2, h3]
      · simp [selectMethod, h1, h2, h3]

/-- Helper: the DELETE builder path is selected exactly when the uppercased
method string is "DELETE". -/
lemma selectMethod_eq_DELETE (m : String) :
    selectMethod (some m) = HttpMethod.DELETE ↔ toUppercase m = "DELETE" := by
  by_cases h1 : toUppercase m = "POST"
  · simp [selectMethod, h1]
  · by_cases h2 : toUppercase m = "PUT"
    · simp [selectMethod, h1, h2]
    · by_cases h3 : toUppercase m = "DELETE"
      · simp [selectMethod, h1, h2, h3]
      · simp [selectMethod, h1, h2, h3]

/-- C1: for every invocation of api_fetch that returns a response envelope,
the envelope's ok field is true if and only if its status field is in the
200–299 range. -/
theorem apiFetch_ok_iff_status_2xx (world : Request → SendResult) (url : String)
    (method : Option String) (env : HttpResponse)
    (h : (api_fetch world url method).1 = Except.ok env) :
    env.ok = true ↔ 200 ≤ env.status ∧ env.status < 300 := by
  unfold api_fetch at h
  cases hw : world (requestFor url method) with
  | sendErr e => simp [hw] at h
  | resp r =>
    cases hb : r.bodyRead with
    | error e => simp [hw, hb] at h
    | ok body =>
      simp only [hw, hb] at h
      cases h
      simp [statusIsSuccess, Bool.and_eq_true, decide_eq_true_eq]

/-- Witness for C1 at a concrete input: a 200 response with body text yields an
envelope whose ok field is true and whose status lies in the 200–299 range. -/
theorem apiFetch_ok_iff_status_2xx_witness :
    (api_fetch (netOk 200 "hello") "https://example.com/api" none).1
      = Except.ok ⟨200, "hello", true⟩
    ∧ ((⟨200, "hello", true⟩ : HttpResponse).ok = true
        ↔ 200 ≤ (⟨200, "hello", true⟩ : HttpResponse).status
          ∧ (⟨200, "hello", true⟩ : HttpResponse).status < 300) :=
  ⟨rfl, apiFetch_ok_iff_status_2xx (netOk 200 "hello") "https://example.com/api"
    none ⟨200, "hello", true⟩ rfl⟩

/-- C2: whenever an HTTP response is received and its body decodes, the command
returns a success result (an envelope) and never the error path, whatever the
status code; only the envelope's ok field reflects the HTTP-level failure. -/
theorem apiFetch_http_status_never_error (world : Request → SendResult)
    (url : String) (method : Option String) (r : NetResponse) (body : String)
    (hw : world (requestFor url method) = SendResult.resp r)
    (hb : r.bodyRead = Except.ok body) :
    (api_fetch world url method).1
      = Except.ok ⟨r.status, body, statusIsSuccess r.status⟩
    ∧ ∀ e : String, (api_fetch world url method).1 ≠ Except.error e := by
  have hres : (api_fetch world url method).1
      = Except.ok ⟨r.status, body, statusIsSuccess r.status⟩ := by
    unfold api_fetch
    simp [hw, hb]
  exact ⟨hres, fun e he => by rw [hres] at he; exact Except.noConfusion he⟩

/-- Witness for C2 at the spec's 404 scenario: a 404 response yields the
envelope with status 404, the body text, and ok false — not an error. -/
theorem apiFetch_http_status_never_error_witness :
    netOk 404 "Not Found" (requestFor "https://example.com/missing" (some "GET"))
      = SendResult.resp ⟨404, Except.ok "Not Found"⟩
    ∧ (api_fetch (netOk 404 "Not Found") "https://example.com/missing"
        (some "GET")).1 = Except.ok ⟨404, "Not Found", false⟩
    ∧ ∀ e : String, (api_fetch (netOk 404 "Not Found")
        "https://example.com/missing" (some "GET")).1 ≠ Except.error e :=
  ⟨rfl,
    apiFetch_http_status_never_error (netOk 404 "Not Found")
      "https://example.com/missing" (some "GET") ⟨404, Except.ok "Not Found"⟩
      "Not Found" rfl rfl⟩

/-- C3: an absent method, or any string whose uppercase form is none of GET,
POST, PUT, DELETE, issues the request exactly as if the method were "GET"; and
the recognized non-default builder paths are selected exactly on the uppercase
strings POST, PUT and DELETE. -/
theorem apiFetch_method_defaults_to_GET (world : Request → SendResult)
    (url m : String)
    (h : toUppercase m ≠ "GET" ∧ toUppercase m ≠ "POST"
      ∧ toUppercase m ≠ "PUT" ∧ toUppercase m ≠ "DELETE") :
    api_fetch world url (some m) = api_fetch world url (some "GET")
    ∧ api_fetch world url none = api_fetch world url (some "GET")
    ∧ ∀ m' : String,
        (selectMethod (some m') = HttpMethod.POST ↔ toUppercase m' = "POST")
        ∧ (selectMethod (some m') = HttpMethod.PUT ↔ toUppercase m' = "PUT")
        ∧ (selectMethod (some m') = HttpMethod.DELETE
            ↔ toUppercase m' = "DELETE") := by
  obtain ⟨-, h2, h3, h4⟩ := h
  refine ⟨?_, ?_, ?_⟩
  · exact apiFetch_congr_method world url (some m) (some "GET")
      (by simp [selectMethod, h2, h3, h4]; decide)
  · exact apiFetch_congr_method world url none (some "GET") rfl
  · intro m'
    exact ⟨selectMethod_eq_POST m', selectMethod_eq_PUT m',
      selectMethod_eq_DELETE m'⟩

/-- Witness for C3 at the spec's example: passing "PATCH" behaves identically
to passing "GET", as does omitting the method. -/
theorem apiFetch_method_defaults_to_GET_witness :
    (toUppercase "PATCH" ≠ "GET" ∧ toUppercase "PATCH" ≠ "POST"
      ∧ toUppercase "PATCH" ≠ "PUT" ∧ toUppercase "PATCH" ≠ "DELETE")
    ∧ api_fetch (netOk 200 "hi") "https://example.com/api" (some "PATCH")
        = api_fetch (netOk 200 "hi") "https://example.com/api" (some "GET")
    ∧ api_fetch (netOk 200 "hi") "https://example.com/api" none
        = api_fetch (netOk 200 "hi") "https://example.com/api" (some "GET")
    ∧ ∀ m' : String,
        (selectMethod (some m') = HttpMethod.POST ↔ toUppercase m' = "POST")
        ∧ (selectMethod (some m') = HttpMethod.PUT ↔ toUppercase m' = "PUT")
        ∧ (selectMethod (some m') = HttpMethod.DELETE
            ↔ toUppercase m' = "DELETE") :=
  ⟨by decide,
    apiFetch_method_defaults_to_GET (netOk 200 "hi") "https://example.com/api"
      "PATCH" (by decide)⟩

/-- C4: method matching is case-insensitive — any method string whose
uppercase form is "POST" selects the POST request path, and likewise for PUT
and DELETE. -/
theorem apiFetch_method_case_insensitive (world : Request → SendResult)
    (url m p d : String) (hm : toUppercase m = "POST")
    (hp : toUppercase p = "PUT") (hd2 : toUppercase d = "DELETE") :
    (api_fetch world url (some m)).2 = [⟨HttpMethod.POST, url, fixedHeaders⟩]
    ∧ (api_fetch world url (some p)).2 = [⟨HttpMethod.PUT, url, fixedHeaders⟩]
    ∧ (api_fetch world url (some d)).2
        = [⟨HttpMethod.DELETE, url, fixedHeaders⟩] := by
  refine ⟨?_, ?_, ?_⟩
  · rw [apiFetch_trace]
    unfold requestFor
    rw [(selectMethod_eq_POST m).mpr hm]
  · rw [apiFetch_trace]
    unfold requestFor
    rw [(selectMethod_eq_PUT p).mpr hp]
  · rw [apiFetch_trace]
    unfold requestFor
    rw [(selectMethod_eq_DELETE d).mpr hd2]

/-- Witness for C4: the method strings "poſt" (whose Unicode uppercase form is
"POST"), "Put" and "delete" select the POST, PUT and DELETE paths
respectively. -/
theorem apiFetch_method_case_insensitive_witness :
    (toUppercase "poſt" = "POST" ∧ toUppercase "Put" = "PUT"
      ∧ toUppercase "delete" = "DELETE")
    ∧ (api_fetch (netOk 200 "hi") "https://example.com/api" (some "poſt")).2
        = [⟨HttpMethod.POST, "https://example.com/api", fixedHeaders⟩]
    ∧ (api_fetch (netOk 200 "hi") "https://example.com/api" (some "Put")).2
        = [⟨HttpMethod.PUT, "https://example.com/api", fixedHeaders⟩]
    ∧ (api_fetch (netOk 200 "hi") "https://example.com/api" (some "delete")).2
        = [⟨HttpMethod.DELETE, "https://example.com/api", fixedHeaders⟩] :=
  ⟨⟨by decide, by decide, by decide⟩,
    apiFetch_method_case_insensitive (netOk 200 "hi") "https://example.com/api"
      "poſt" "Put" "delete" (by decide) (by decide) (by decide)⟩

/-- C5: every invocation, regardless of the url and method arguments, hands the
network exactly one request carrying exactly the three fixed headers, whose
values are the compile-time constants and depend on no input. -/
theorem apiFetch_fixed_headers (world : Request → SendResult) (url : String)
    (method : Option String) :
    (api_fetch world url method).2 =
      [{ method := selectMethod method, url := url,
         headers := [("content-type", "application/json"),
                     ("origin", "https://nagusamecs.github.io"),
                     ("referer", "https://nagusamecs.github.io/OpenNotesAPI/")] }] := by
  rw [apiFetch_trace]
  rfl

/-- C6: when the request cannot be dispatched or fails in transit, the command
fails with the formatted string wrapping the underlying send failure, and never
returns a response envelope. -/
theorem apiFetch_transport_error (world : Request → SendResult) (url : String)
    (method : Option String) (e : String)
    (hw : world (requestFor url method) = SendResult.sendErr e) :
    (api_fetch world url method).1 = Except.error ("Request failed: " ++ e)
    ∧ ∀ env : HttpResponse, (api_fetch world url method).1 ≠ Except.ok env := by
  have hres : (api_fetch world url method).1
      = Except.error ("Request failed: " ++ e) := by
    unfold api_fetch
    simp [hw]
  exact ⟨hres, fun env he => by rw [hres] at he; exact Except.noConfusion he⟩

/-- Witness for C6: against a network in which dispatch fails with
"connection refused", the command fails with the wrapped transport error and
returns no envelope. -/
theorem apiFetch_transport_error_witness :
    netDown "connection refused" (requestFor "https://unreachable.example/" none)
      = SendResult.sendErr "connection refused"
    ∧ (api_fetch (netDown "connection refused") "https://unreachable.example/"
        none).1 = Except.error ("Request failed: " ++ "connection refused")
    ∧ ∀ env : HttpResponse,
        (api_fetch (netDown "connection refused") "https://unreachable.example/"
          none).1 ≠ Except.ok env :=
  ⟨rfl,
    apiFetch_transport_error (netDown "connection refused")
      "https://unreachable.example/" none "connection refused" rfl⟩

/-- C7: when a response is received but its body cannot be decoded as text,
the command fails with the body-read error string — distinct from every
transport-failure string — and returns no envelope. -/
theorem apiFetch_body_decode_error (world : Request → SendResult) (url : String)
    (method : Option String) (r : NetResponse) (e : String)
    (hw : world (requestFor url method) = SendResult.resp r)
    (hb : r.bodyRead = Except.error e) :
    (api_fetch world url method).1 = Except.error ("Failed to read body: " ++ e)
    ∧ (∀ f : String, "Failed to read body: " ++ e ≠ "Request failed: " ++ f)
    ∧ ∀ env : HttpResponse, (api_fetch world url method).1 ≠ Except.ok env := by
  have hres : (api_fetch world url method).1
      = Except.error ("Failed to read body: " ++ e) := by
    unfold api_fetch
    simp [hw, hb]
  refine ⟨hres, ?_, fun env he => by rw [hres] at he; exact Except.noConfusion he⟩
  intro f hf
  have hdata := congrArg String.data hf
  rw [String.data_append, String.data_append] at hdata
  rw [show "Failed to read body: ".data = 'F' :: "ailed to read body: ".data from
        rfl,
      show "Request failed: ".data = 'R' :: "equest failed: ".data from rfl,
      List.cons_append, List.cons_append] at hdata
  exact absurd (List.head_eq_of_cons_eq hdata) (by decide)

/-- Witness for C7: a 502 response whose body fails to decode yields the
body-read error string, which differs from every transport-failure string, and
no envelope. -/
theorem apiFetch_body_decode_error_witness :
    netBadBody 502 "invalid utf-8" (requestFor "https://example.com/api" none)
      = SendResult.resp ⟨502, Except.error "invalid utf-8"⟩
    ∧ (api_fetch (netBadBody 502 "invalid utf-8") "https://example.com/api"
        none).1 = Except.error ("Failed to read body: " ++ "invalid utf-8")
    ∧ (∀ f : String,
        "Failed to read body: " ++ "invalid utf-8" ≠ "Request failed: " ++ f)
    ∧ ∀ env : HttpResponse,
        (api_fetch (netBadBody 502 "invalid utf-8") "https://example.com/api"
          none).1 ≠ Except.ok env :=
  ⟨rfl,
    apiFetch_body_decode_error (netBadBody 502 "invalid utf-8")
      "https://example.com/api" none ⟨502, Except.error "invalid utf-8"⟩
      "invalid utf-8" rfl rfl⟩

/-- C8: every returned envelope is built exactly from the received response —
status equals the response's HTTP status code, ok equals its success flag, and
body equals the fully buffered response body text. -/
theorem apiFetch_envelope_construction (world : Request → SendResult)
    (url : String) (method : Option String) (r : NetResponse) (body : String)
    (hw : world (requestFor url method) = SendResult.resp r)
    (hb : r.bodyRead = Except.ok body) :
    (api_fetch world url method).1
      = Except.ok { status := r.status, body := body,
                    ok := statusIsSuccess r.status } := by
  unfold api_fetch
  simp [hw, hb]

/-- Witness for C8 at the spec's scenario: url "https://example.com/api" with
method absent dispatches one GET request with the fixed headers, and a 200
response with body text braces yields the envelope with status 200, that body,
and ok true. -/
theorem apiFetch_envelope_construction_witness :
    netOk 200 "\x7b\x7d" (requestFor "https://example.com/api" none)
      = SendResult.resp ⟨200, Except.ok "\x7b\x7d"⟩
    ∧ (api_fetch (netOk 200 "\x7b\x7d") "https://example.com/api" none).1
        = Except.ok ⟨200, "\x7b\x7d", true⟩
    ∧ (api_fetch (netOk 200 "\x7b\x7d") "https://example.com/api" none).2
        = [⟨HttpMethod.GET, "https://example.com/api", fixedHeaders⟩] :=
  ⟨rfl,
    apiFetch_envelope_construction (netOk 200 "\x7b\x7d")
      "https://example.com/api" none ⟨200, Except.ok "\x7b\x7d"⟩ "\x7b\x7d"
      rfl rfl,
    rfl⟩

/-- C9: every invocation issues exactly one outbound network request — on the
success path, the transport-failure path and the decode-failure path alike,
with no retry and no second request. -/
theorem apiFetch_exactly_one_request (world : Request → SendResult)
    (url : String) (method : Option String) :
    (api_fetch world url method).2.length = 1 := by
  rw [apiFetch_trace]
  rfl

/-- C10: api_fetch is total over its inputs — the three fixed header values
satisfy the static-header validity predicate the constructor panics on, and for
every url, method and network behavior the outcome is an envelope or one of
the two formatted error strings; no other outcome exists. -/
theorem apiFetch_total (world : Request → SendResult) (url : String)
    (method : Option String) :
    (fixedHeaders.all fun p => headerValueValid p.2) = true
    ∧ ((∃ env : HttpResponse,
          (api_fetch world url method).1 = Except.ok env)
        ∨ (∃ e : String, (api_fetch world url method).1
            = Except.error ("Request failed: " ++ e))
        ∨ (∃ e : String, (api_fetch world url method).1
            = Except.error ("Failed to read body: " ++ e))) := by
  refine ⟨by decide, ?_⟩
  cases hw : world (requestFor url method) with
  | sendErr e =>
    exact Or.inr (Or.inl ⟨e, by unfold api_fetch; simp [hw]⟩)
  | resp r =>
    cases hb : r.bodyRead with
    | error e =>
      exact Or.inr (Or.inr ⟨e, by unfold api_fetch; simp [hw, hb]⟩)
    | ok body =>
      exact Or.inl ⟨⟨r.status, body, statusIsSuccess r.status⟩,
        by unfold api_fetch; simp [hw, hb]⟩

end OpenNotesAPI
